import Mathlib

/-!
Shallow embedding of `src/generators/controller.generator.ts` from the
pretty-express repository: the controller combiner (`combineControllers`),
the per-controller router generator (`generateRouter`), the request-handler
factory (`generateRequestHandler`) and the argument-ordering helper
(`generateSortedParams`), together with proofs of the behavioural claims
about them.

Modelling conventions:
* JavaScript runtime values that controller methods consume and produce are
  modelled by the inductive `JsVal` (including `null`, `undefined` and a
  pending promise, which the source never awaits).
* The `instanceof HttpResponse` test in the source is a runtime-tag test,
  not a structural test, so a controller return value is modelled by the
  inductive `ControllerValue`: either an `HttpResponse` instance (carrying
  its `status` and `json` fields) or any other value.
* An express `Router` is modelled as the list of things mounted on it, in
  mounting order; `router.use(mw)` and `router[verb](path, ...chain)`
  become the two constructors of `RouterEntry`.  The `finalRouter` built at
  the end of `generateRouter` always consists of exactly one
  `use(baseUrl, innerRouter)` call, so it is modelled by the structure
  `MountedRouter` carrying the base url and the inner router's entries.
* Middlewares, validation schemas and validation options are opaque at this
  layer; they are represented by `Nat` handles.
* A TypeScript object of the `IParamsMetaData` interface is modelled as an
  association list `List (String × Option Int)` in `Object.keys`
  enumeration (insertion) order; `none` models an `undefined` entry.
* `Array.prototype.sort` with comparator `(a, b) => a.weight - b.weight` is
  (per the ECMAScript specification) a stable sort by ascending weight, so
  it is modelled by `List.insertionSort`, which is stable.
-/

namespace PrettyExpress

/-- A JavaScript value as far as this layer can observe it: primitives,
objects as ordered field lists, and a pending (un-awaited) promise whose
eventual fate — resolving, or rejecting with an error message — is carried
for the sake of stating what this layer does *not* do with it. -/
inductive JsVal where
  | null
  | undef
  | bool (b : Bool)
  | num (n : Int)
  | str (s : String)
  | obj (fields : List (String × JsVal))
  | pendingPromise (rejectsWith : Option String)

/-- The facets of an express `Request` object that
`generateSortedParams` destructures: `const { body, params, query, file,
files } = req`. -/
structure Req where
  body : JsVal
  params : JsVal
  query : JsVal
  file : JsVal
  files : JsVal

/-- A positional argument passed to a controller method: the request object
itself, the opaque response object, the opaque next-callback, or a plain
value taken from a request facet (or the JS `null` the source initialises
`value` with). -/
inductive Arg where
  | reqArg (r : Req)
  | resArg
  | nextArg
  | val (v : JsVal)

/-- One entry of the `sortedParams` array built by `generateSortedParams`:
`{ weight: number; value: any; key?: string }`. -/
structure SortedParam where
  weight : Int
  value : Arg
  key : Option String

/-- The key dispatch inside the `forEach` of `generateSortedParams`.  The
source initialises `let value: any = null` and then runs five independent
`if (key === "...")` statements with mutually exclusive conditions, which
is equivalent to this if/else chain; an unrecognised key keeps the initial
`null`. -/
def resolveParamValue (req : Req) (key : String) : Arg :=
  if key = "bodyIndex" then .val req.body
  else if key = "paramsIndex" then .val req.params
  else if key = "queryIndex" then .val req.query
  else if key = "fileIndex" then .val req.file
  else if key = "filesIndex" then .val req.files
  else .val JsVal.null

/-- The three fixed entries `generateSortedParams` starts from: the request
object at weight 100, the response object at weight 101 and the
next-callback at weight 102, in that insertion order. -/
def initialParams (req : Req) : List SortedParam :=
  [⟨100, .reqArg req, none⟩, ⟨101, .resArg, none⟩, ⟨102, .nextArg, none⟩]

/-- The entries pushed by
`Object.keys(paramsIndex).filter(item => paramsIndex[item] !== undefined).forEach(...)`:
one `{weight, value, key}` record per key whose weight is defined, in key
enumeration order. -/
def boundParams (req : Req) (paramsIndex : List (String × Option Int)) :
    List SortedParam :=
  paramsIndex.filterMap fun p =>
    p.2.map fun w => ⟨w, resolveParamValue req p.1, some p.1⟩

/-- The comparator `(a, b) => a.weight - b.weight`: sort ascending by
weight. -/
def paramLE (a b : SortedParam) : Prop := a.weight ≤ b.weight

instance : DecidableRel paramLE :=
  fun a b => inferInstanceAs (Decidable (a.weight ≤ b.weight))

instance : IsTotal SortedParam paramLE :=
  ⟨fun a b => Int.le_total a.weight b.weight⟩

instance : IsTrans SortedParam paramLE :=
  ⟨fun _ _ _ h1 h2 => le_trans h1 h2⟩

/-- The `sortedParams` array of `generateSortedParams` after
`sortedParams.sort((a, b) => a.weight - b.weight)`: the three fixed entries
followed by the bound entries, stably sorted by ascending weight
(`Array.prototype.sort` is stable per the ECMAScript specification, and
`List.insertionSort` is the corresponding stable sort). -/
def generateSortedParamsEntries (req : Req)
    (paramsIndex : List (String × Option Int)) : List SortedParam :=
  List.insertionSort paramLE (initialParams req ++ boundParams req paramsIndex)

/-- `generateSortedParams`: the final positional argument list
`sortedParams.map(item => item.value)`. -/
def generateSortedParams (req : Req)
    (paramsIndex : List (String × Option Int)) : List Arg :=
  (generateSortedParamsEntries req paramsIndex).map (·.value)

/-- A value returned by a controller method, as discriminated by the
`controllerValue instanceof HttpResponse` test: either an actual
`HttpResponse` instance (with its `status` and `json` fields) or any other
value.  A plain object that merely *looks like* an `HttpResponse` is
`plain (.obj ...)`, not `httpResponse ...`. -/
inductive ControllerValue where
  | httpResponse (status : Int) (json : JsVal)
  | plain (v : JsVal)

/-- What the middleware produced by `generateRequestHandler` does with one
request: either `res.status(s).json(b)` or `next(err)`. -/
inductive HandlerOutcome where
  | respond (status : Int) (body : JsVal)
  | errorNext (err : String)

/-- `generateRequestHandler(controllerFunction, paramsIndex)` applied to one
request.  The controller function receives the argument list built by
`generateSortedParams` and either returns a value or throws synchronously
(`Except.error`).  Inside the `try` block: an `HttpResponse` instance is
answered with its own status and json, any other return value with status
200 and the value as json; the `catch` block forwards a thrown error to
`next`. -/
def generateRequestHandler
    (controllerFunction : List Arg → Except String ControllerValue)
    (paramsIndex : List (String × Option Int)) (req : Req) : HandlerOutcome :=
  match controllerFunction (generateSortedParams req paramsIndex) with
  | .error err => .errorNext err
  | .ok (.httpResponse s j) => .respond s j
  | .ok (.plain v) => .respond 200 v

/-- A `{schema, options}` pair from a `validation` metadata field; both are
opaque handles here. -/
structure ValidationMetadata where
  schema : Nat
  options : Nat
deriving DecidableEq

/-- One entry of the sequence returned by `getMethodMetadata`. -/
structure MethodMetadata where
  methodName : String
  method : String
  path : String
  middlewares : List Nat
  errorMiddlewares : List Nat
  validation : Option ValidationMetadata
  paramsMetadata : List (String × Option Int)
deriving DecidableEq

/-- The record returned by `getClassMetadata`. -/
structure ClassMetadata where
  baseUrl : String
  middlewares : List Nat
  errorMiddlewares : List Nat
  validation : Option ValidationMetadata
deriving DecidableEq

/-- A controller as this layer sees it: the metadata the decorator store
returns for it (`getClassMetadata` / `getMethodMetadata`). -/
structure Controller where
  classMetadata : ClassMetadata
  methodMetadata : List MethodMetadata

/-- One element of a route's middleware chain, as mounted by
`generateRouter`: a validation middleware built by
`generateValidationMiddleware(schema, options)`, a user middleware, the
generated request handler for a named method, or a user error
middleware. -/
inductive ChainItem where
  | validationMiddleware (schema : Nat) (options : Nat)
  | middleware (id : Nat)
  | requestHandler (methodName : String)
      (paramsMetadata : List (String × Option Int))
  | errorMiddleware (id : Nat)
deriving DecidableEq

/-- One thing mounted on a router: `router.use(item)` or
`router[verb](path, ...chain)`. -/
inductive RouterEntry where
  | use (item : ChainItem)
  | route (verb : String) (path : String) (chain : List ChainItem)
deriving DecidableEq

/-- Whether a router entry is a verb+path route registration. -/
def RouterEntry.isRoute : RouterEntry → Bool
  | .route _ _ _ => true
  | .use _ => false

/-- The `finalRouter` returned by `generateRouter`: a fresh router whose
single mount is `finalRouter.use(classData.baseUrl, router)`, so it is the
inner router's entries wrapped under the class's base url. -/
structure MountedRouter where
  baseUrl : String
  entries : List RouterEntry
deriving DecidableEq

/-- The registration performed for one method-metadata entry inside the
`funcData.forEach` of `generateRouter`: `router[item.method](item.path,
...validMiddlewares, ...[item.middlewares], generateRequestHandler(...),
...[item.errorMiddlewares])`, where `validMiddlewares` holds the method's
validation middleware when validation is declared. -/
def generateRoute (item : MethodMetadata) : RouterEntry :=
  .route item.method item.path
    ((match item.validation with
      | some v => [ChainItem.validationMiddleware v.schema v.options]
      | none => [])
     ++ item.middlewares.map ChainItem.middleware
     ++ [ChainItem.requestHandler item.methodName item.paramsMetadata]
     ++ item.errorMiddlewares.map ChainItem.errorMiddleware)

/-- `generateRouter(controller)`: mounts, in order, the class-level
validation middleware when declared, the class-level middlewares when the
list is non-empty (`if (classData.middlewares.length != 0)`), one route per
method-metadata entry in metadata order, and the class-level error
middlewares when non-empty; the resulting inner router is wrapped under
`classData.baseUrl` in a fresh outer router. -/
def generateRouter (controller : Controller) : MountedRouter :=
  let classData := controller.classMetadata
  let funcData := controller.methodMetadata
  { baseUrl := classData.baseUrl
    entries :=
      (match classData.validation with
       | some v => [RouterEntry.use (ChainItem.validationMiddleware v.schema v.options)]
       | none => [])
      ++ (if classData.middlewares.length ≠ 0
          then classData.middlewares.map fun m => RouterEntry.use (ChainItem.middleware m)
          else [])
      ++ funcData.map generateRoute
      ++ (if classData.errorMiddlewares.length ≠ 0
          then classData.errorMiddlewares.map fun m => RouterEntry.use (ChainItem.errorMiddleware m)
          else []) }

/-- The optional options object of `combineControllers`; each field is an
optional boolean (`undefined` modelled as `none`). -/
structure CombineOptions where
  skipDefaultHttpErrorMiddleware : Option Bool
  skipDefaultValidationErrorMiddleware : Option Bool
deriving DecidableEq

/-- One thing mounted on the top-level router built by
`combineControllers`: a per-controller fragment, the default
validation-error handler, or the default http-error middleware. -/
inductive TopEntry where
  | controllerFragment (r : MountedRouter)
  | defaultValidationErrorHandler
  | defaultHttpErrorMiddleware
deriving DecidableEq

/-- `combineControllers(controllers, options?)`: mounts each controller's
generated router in input order, then appends the default validation-error
handler under the guard `!options || (options &&
!options.skipDefaultValidationErrorMiddleware)`, then the default
http-error middleware under the corresponding guard (a missing field is
falsy in JavaScript, hence `getD false`). -/
def combineControllers (controllers : List Controller)
    (options : Option CombineOptions) : List TopEntry :=
  (controllers.map fun c => TopEntry.controllerFragment (generateRouter c))
  ++ (if (match options with
          | none => true
          | some o => !(o.skipDefaultValidationErrorMiddleware.getD false))
      then [TopEntry.defaultValidationErrorHandler] else [])
  ++ (if (match options with
          | none => true
          | some o => !(o.skipDefaultHttpErrorMiddleware.getD false))
      then [TopEntry.defaultHttpErrorMiddleware] else [])

/-- A sample request object used to instantiate universally quantified
theorems at concrete inputs. -/
def sampleReq : Req :=
  ⟨.obj [("name", .str "n")], .obj [("id", .str "1")], .obj [], .undef, .undef⟩

/-- A sample `IParamsMetaData` object: body bound at position 0, files
undefined, route params bound at position 1. -/
def sampleParamsIndex : List (String × Option Int) :=
  [("bodyIndex", some 0), ("filesIndex", none), ("paramsIndex", some 1)]

/-- Claim C2: a controller method returning an `HttpResponse` instance makes
the generated handler emit exactly that instance's status and json payload;
any other return value is emitted with status 200 and the value as the JSON
body. -/
theorem generateRequestHandler_result_translation
    (f : List Arg → Except String ControllerValue)
    (paramsIndex : List (String × Option Int)) (req : Req) :
    (∀ (s : Int) (j : JsVal),
        f (generateSortedParams req paramsIndex) = .ok (.httpResponse s j) →
        generateRequestHandler f paramsIndex req = .respond s j)
    ∧ (∀ v : JsVal,
        f (generateSortedParams req paramsIndex) = .ok (.plain v) →
        generateRequestHandler f paramsIndex req = .respond 200 v) := by
  constructor
  · intro s j h
    simp [generateRequestHandler, h]
  · intro v h
    simp [generateRequestHandler, h]

theorem generateRequestHandler_result_translation_witness :
    generateRequestHandler
        (fun _ => .ok (.httpResponse 201 (.obj [("id", .num 5)]))) [] sampleReq
      = .respond 201 (.obj [("id", .num 5)])
    ∧ generateRequestHandler
        (fun _ => .ok (.plain (.obj [("ok", .bool true)]))) [] sampleReq
      = .respond 200 (.obj [("ok", .bool true)]) :=
  ⟨(generateRequestHandler_result_translation
      (fun _ => .ok (.httpResponse 201 (.obj [("id", .num 5)]))) [] sampleReq).1
      201 (.obj [("id", .num 5)]) rfl,
   (generateRequestHandler_result_translation
      (fun _ => .ok (.plain (.obj [("ok", .bool true)]))) [] sampleReq).2
      (.obj [("ok", .bool true)]) rfl⟩

/-- Claim C3: when the controller method throws synchronously, the generated
handler forwards exactly that error to the next-callback and writes no
response itself; the `catch` block means the exception never escapes. -/
theorem generateRequestHandler_sync_throw
    (f : List Arg → Except String ControllerValue)
    (paramsIndex : List (String × Option Int)) (req : Req) (err : String)
    (h : f (generateSortedParams req paramsIndex) = .error err) :
    generateRequestHandler f paramsIndex req = .errorNext err
    ∧ ∀ (s : Int) (b : JsVal),
        generateRequestHandler f paramsIndex req ≠ .respond s b := by
  have he : generateRequestHandler f paramsIndex req = .errorNext err := by
    simp [generateRequestHandler, h]
  refine ⟨he, fun s b hc => ?_⟩
  rw [he] at hc
  exact HandlerOutcome.noConfusion hc

theorem generateRequestHandler_sync_throw_witness :
    generateRequestHandler (fun _ => .error "boom") [] sampleReq = .errorNext "boom"
    ∧ ∀ (s : Int) (b : JsVal),
        generateRequestHandler (fun _ => .error "boom") [] sampleReq ≠ .respond s b :=
  generateRequestHandler_sync_throw (fun _ => .error "boom") [] sampleReq "boom" rfl

/-- Claim C7: a promise-like return value (not an `HttpResponse` instance)
is not awaited: the handler emits status 200 with the raw pending value as
the JSON body, and an asynchronous rejection carried by that pending value
is never routed to the next-callback by this layer. -/
theorem generateRequestHandler_promise_not_awaited
    (f : List Arg → Except String ControllerValue)
    (paramsIndex : List (String × Option Int)) (req : Req) (rej : Option String)
    (h : f (generateSortedParams req paramsIndex)
        = .ok (.plain (.pendingPromise rej))) :
    generateRequestHandler f paramsIndex req = .respond 200 (.pendingPromise rej)
    ∧ ∀ e : String, generateRequestHandler f paramsIndex req ≠ .errorNext e := by
  have he : generateRequestHandler f paramsIndex req
      = .respond 200 (.pendingPromise rej) := by
    simp [generateRequestHandler, h]
  refine ⟨he, fun e hc => ?_⟩
  rw [he] at hc
  exact HandlerOutcome.noConfusion hc

theorem generateRequestHandler_promise_not_awaited_witness :
    generateRequestHandler
        (fun _ => .ok (.plain (.pendingPromise (some "boom")))) [] sampleReq
      = .respond 200 (.pendingPromise (some "boom"))
    ∧ ∀ e : String,
        generateRequestHandler
          (fun _ => .ok (.plain (.pendingPromise (some "boom")))) [] sampleReq
        ≠ .errorNext e :=
  generateRequestHandler_promise_not_awaited
    (fun _ => .ok (.plain (.pendingPromise (some "boom")))) [] sampleReq
    (some "boom") rfl

/-- Claim C8: `HttpResponse` detection is by instance, not by shape — a
plain object carrying `status` and `json` fields is treated as a bare
value: the handler answers 200 with the whole object, not with the
object's own status/json. -/
theorem generateRequestHandler_shape_not_instance
    (f : List Arg → Except String ControllerValue)
    (paramsIndex : List (String × Option Int)) (req : Req)
    (s j : JsVal) (rest : List (String × JsVal))
    (h : f (generateSortedParams req paramsIndex)
        = .ok (.plain (.obj (("status", s) :: ("json", j) :: rest)))) :
    generateRequestHandler f paramsIndex req
      = .respond 200 (.obj (("status", s) :: ("json", j) :: rest))
    ∧ ∀ st : Int, s = .num st → st ≠ 200 →
        generateRequestHandler f paramsIndex req ≠ .respond st j := by
  have he : generateRequestHandler f paramsIndex req
      = .respond 200 (.obj (("status", s) :: ("json", j) :: rest)) := by
    simp [generateRequestHandler, h]
  refine ⟨he, fun st _ hne hc => ?_⟩
  rw [he] at hc
  exact hne (HandlerOutcome.respond.inj hc).1.symm

theorem generateRequestHandler_shape_not_instance_witness :
    generateRequestHandler
        (fun _ => .ok (.plain
          (.obj [("status", .num 201), ("json", .obj [("id", .num 5)])]))) [] sampleReq
      = .respond 200 (.obj [("status", .num 201), ("json", .obj [("id", .num 5)])])
    ∧ generateRequestHandler
        (fun _ => .ok (.plain
          (.obj [("status", .num 201), ("json", .obj [("id", .num 5)])]))) [] sampleReq
      ≠ .respond 201 (.obj [("id", .num 5)]) := by
  have h := generateRequestHandler_shape_not_instance
    (fun _ => .ok (.plain
      (.obj [("status", .num 201), ("json", .obj [("id", .num 5)])]))) [] sampleReq
    (.num 201) (.obj [("id", .num 5)]) [] rfl
  exact ⟨h.1, h.2 201 rfl (by decide)⟩

/-- The `length != 0` guards in `generateRouter` are redundant: spreading an
empty list mounts nothing either way. -/
theorem guarded_map_eq {γ δ : Type} (l : List γ) (f : γ → δ) :
    (if l.length ≠ 0 then l.map f else []) = l.map f := by
  rcases l with _ | ⟨a, t⟩ <;> simp

/-- Claim C4: `combineControllers` mounts each controller's fragment in
input order, then appends the default validation-error handler iff
`skipDefaultValidationErrorMiddleware` is not set to `true`, then the
default http-error middleware iff `skipDefaultHttpErrorMiddleware` is not
set to `true`; with only the http default suppressed the generic default is
absent while the validation default is present, and with options omitted
both defaults are present. -/
theorem combineControllers_defaults :
    (∀ (controllers : List Controller) (options : Option CombineOptions),
      combineControllers controllers options =
        (controllers.map fun c => TopEntry.controllerFragment (generateRouter c))
        ++ (if options.bind (fun o => o.skipDefaultValidationErrorMiddleware) ≠ some true
            then [TopEntry.defaultValidationErrorHandler] else [])
        ++ (if options.bind (fun o => o.skipDefaultHttpErrorMiddleware) ≠ some true
            then [TopEntry.defaultHttpErrorMiddleware] else []))
    ∧ (∀ controllers : List Controller,
        TopEntry.defaultHttpErrorMiddleware ∉
          combineControllers controllers (some ⟨some true, none⟩)
        ∧ TopEntry.defaultValidationErrorHandler ∈
          combineControllers controllers (some ⟨some true, none⟩))
    ∧ (∀ controllers : List Controller,
        TopEntry.defaultValidationErrorHandler ∈ combineControllers controllers none
        ∧ TopEntry.defaultHttpErrorMiddleware ∈ combineControllers controllers none) := by
  refine ⟨?_, ?_, ?_⟩
  · intro controllers options
    rcases options with _ | ⟨hOpt, vOpt⟩
    · simp [combineControllers]
    · rcases hOpt with _ | hb <;> rcases vOpt with _ | vb
      · simp [combineControllers]
      · cases vb <;> simp [combineControllers]
      · cases hb <;> simp [combineControllers]
      · cases hb <;> cases vb <;> simp [combineControllers]
  · intro controllers
    constructor
    · simp [combineControllers]
    · simp [combineControllers]
  · intro controllers
    constructor
    · simp [combineControllers]
    · simp [combineControllers]

theorem combineControllers_defaults_witness :
    combineControllers [] (some ⟨some true, none⟩)
      = [TopEntry.defaultValidationErrorHandler] :=
  Eq.trans (combineControllers_defaults.1 [] (some ⟨some true, none⟩)) (by decide)

/-- Claim C9: combining an empty controller list still succeeds: with no
suppression flags the result contains no controller fragment and consists
of the default validation-error handler followed by the default http-error
middleware, whether the options object is omitted or present with neither
flag set. -/
theorem combineControllers_empty_list :
    combineControllers [] none
      = [TopEntry.defaultValidationErrorHandler, TopEntry.defaultHttpErrorMiddleware]
    ∧ combineControllers [] (some ⟨none, none⟩)
      = [TopEntry.defaultValidationErrorHandler, TopEntry.defaultHttpErrorMiddleware] :=
  ⟨rfl, rfl⟩

/-- Mounting middlewares with `router.use` registers no route. -/
theorem filter_isRoute_use_map {γ : Type} (l : List γ) (f : γ → ChainItem) :
    ((l.map fun m => RouterEntry.use (f m)).filter RouterEntry.isRoute) = [] := by
  induction l with
  | nil => rfl
  | cons a t ih => simp [RouterEntry.isRoute, ih]

/-- Every registration made inside the `funcData.forEach` is a route. -/
theorem filter_isRoute_map_generateRoute (l : List MethodMetadata) :
    ((l.map generateRoute).filter RouterEntry.isRoute) = l.map generateRoute := by
  induction l with
  | nil => rfl
  | cons a t ih => simp [generateRoute, RouterEntry.isRoute, ih]

/-- Claim C5: for a controller with `n` method-metadata entries the
generated router registers exactly `n` routes, one per entry in metadata
order, each on its entry's verb and path, and each route's chain is the
method validation middleware (iff declared), then the method middlewares,
then the generated request handler, then the method error middlewares. -/
theorem generateRouter_routes (classData : ClassMetadata)
    (funcData : List MethodMetadata) :
    ((generateRouter ⟨classData, funcData⟩).entries.filter RouterEntry.isRoute).length
        = funcData.length
    ∧ (generateRouter ⟨classData, funcData⟩).entries.filter RouterEntry.isRoute
        = funcData.map fun item =>
            RouterEntry.route item.method item.path
              ((match item.validation with
                | some v => [ChainItem.validationMiddleware v.schema v.options]
                | none => [])
               ++ item.middlewares.map ChainItem.middleware
               ++ [ChainItem.requestHandler item.methodName item.paramsMetadata]
               ++ item.errorMiddlewares.map ChainItem.errorMiddleware) := by
  have hroutes : (generateRouter ⟨classData, funcData⟩).entries.filter RouterEntry.isRoute
      = funcData.map generateRoute := by
    rcases hv : classData.validation with _ | v <;>
      simp [generateRouter, hv, guarded_map_eq, List.filter_append,
            filter_isRoute_use_map, filter_isRoute_map_generateRoute,
            RouterEntry.isRoute] <;>
      split_ifs <;> simp [filter_isRoute_use_map]
  refine ⟨?_, ?_⟩
  · rw [hroutes, List.length_map]
  · rw [hroutes]
    rfl

/-- Claim C6: in the generated router the class-level validation middleware
(when declared) comes first, then the class-level middlewares, then all
routes, then the class-level error middlewares; and the inner router is
wrapped in a fresh outer router under the class's `baseUrl`, so the routes
sit under that path prefix. -/
theorem generateRouter_structure (c : Controller) :
    (generateRouter c).baseUrl = c.classMetadata.baseUrl
    ∧ (generateRouter c).entries =
        (match c.classMetadata.validation with
         | some v => [RouterEntry.use (ChainItem.validationMiddleware v.schema v.options)]
         | none => [])
        ++ (c.classMetadata.middlewares.map fun m =>
              RouterEntry.use (ChainItem.middleware m))
        ++ c.methodMetadata.map generateRoute
        ++ (c.classMetadata.errorMiddlewares.map fun m =>
              RouterEntry.use (ChainItem.errorMiddleware m)) := by
  constructor
  · rfl
  · simp only [generateRouter, guarded_map_eq]

/-- The weights of the bound entries are exactly the defined weights of the
params index, in key enumeration order. -/
theorem boundParams_map_weight (req : Req)
    (paramsIndex : List (String × Option Int)) :
    (boundParams req paramsIndex).map (·.weight) = paramsIndex.filterMap Prod.snd := by
  induction paramsIndex with
  | nil => rfl
  | cons p t ih =>
    rcases p with ⟨k, _ | w⟩
    · simpa [boundParams] using ih
    · simpa [boundParams] using ih

/-- Claim C1: with bound keys drawn from the five recognised keys and
weights pairwise distinct and distinct from the reserved 100/101/102, the
argument list handed to the controller method has exactly `3 + k`
positions, the sorted entry list is strictly ascending by weight, the
request/response/next entries sit at weights 100/101/102, and each bound
key's entry carries the corresponding request facet. -/
theorem generateSortedParams_spec (req : Req)
    (paramsIndex : List (String × Option Int))
    (_hkeys : ∀ p ∈ paramsIndex, p.2 ≠ none →
        p.1 ∈ ["bodyIndex", "paramsIndex", "queryIndex", "fileIndex", "filesIndex"])
    (hdistinct : (paramsIndex.filterMap Prod.snd).Pairwise (· ≠ ·))
    (hreserved : ∀ w ∈ paramsIndex.filterMap Prod.snd,
        w ≠ 100 ∧ w ≠ 101 ∧ w ≠ 102) :
    (generateSortedParams req paramsIndex).length
        = 3 + (paramsIndex.filterMap Prod.snd).length
    ∧ (generateSortedParamsEntries req paramsIndex).Pairwise
        (fun a b => a.weight < b.weight)
    ∧ (⟨100, .reqArg req, none⟩ : SortedParam)
        ∈ generateSortedParamsEntries req paramsIndex
    ∧ (⟨101, .resArg, none⟩ : SortedParam)
        ∈ generateSortedParamsEntries req paramsIndex
    ∧ (⟨102, .nextArg, none⟩ : SortedParam)
        ∈ generateSortedParamsEntries req paramsIndex
    ∧ (∀ w : Int, ("bodyIndex", some w) ∈ paramsIndex →
        (⟨w, .val req.body, some "bodyIndex"⟩ : SortedParam)
          ∈ generateSortedParamsEntries req paramsIndex)
    ∧ (∀ w : Int, ("paramsIndex", some w) ∈ paramsIndex →
        (⟨w, .val req.params, some "paramsIndex"⟩ : SortedParam)
          ∈ generateSortedParamsEntries req paramsIndex)
    ∧ (∀ w : Int, ("queryIndex", some w) ∈ paramsIndex →
        (⟨w, .val req.query, some "queryIndex"⟩ : SortedParam)
          ∈ generateSortedParamsEntries req paramsIndex)
    ∧ (∀ w : Int, ("fileIndex", some w) ∈ paramsIndex →
        (⟨w, .val req.file, some "fileIndex"⟩ : SortedParam)
          ∈ generateSortedParamsEntries req paramsIndex)
    ∧ (∀ w : Int, ("filesIndex", some w) ∈ paramsIndex →
        (⟨w, .val req.files, some "filesIndex"⟩ : SortedParam)
          ∈ generateSortedParamsEntries req paramsIndex) := by
  have hperm : List.Perm (generateSortedParamsEntries req paramsIndex)
      (initialParams req ++ boundParams req paramsIndex) :=
    List.perm_insertionSort paramLE _
  have hblen : (boundParams req paramsIndex).length
      = (paramsIndex.filterMap Prod.snd).length := by
    have h := congrArg List.length (boundParams_map_weight req paramsIndex)
    simpa using h
  have hlen : (generateSortedParams req paramsIndex).length
      = 3 + (paramsIndex.filterMap Prod.snd).length := by
    have h := hperm.length_eq
    simp only [generateSortedParams, List.length_map, h, List.length_append,
      initialParams, List.length_cons, List.length_nil, hblen]
  have hboundne : (boundParams req paramsIndex).Pairwise
      (fun a b : SortedParam => a.weight ≠ b.weight) := by
    have h : ((boundParams req paramsIndex).map (·.weight)).Pairwise (· ≠ ·) := by
      rw [boundParams_map_weight]
      exact hdistinct
    exact List.pairwise_map.mp h
  have hne : (initialParams req ++ boundParams req paramsIndex).Pairwise
      (fun a b : SortedParam => a.weight ≠ b.weight) := by
    rw [List.pairwise_append]
    refine ⟨?_, hboundne, ?_⟩
    · simp [initialParams]
    · intro a ha b hb
      have hbw : b.weight ∈ paramsIndex.filterMap Prod.snd := by
        rw [← boundParams_map_weight req paramsIndex]
        exact List.mem_map_of_mem _ hb
      have hres := hreserved _ hbw
      have ha' : a = (⟨100, .reqArg req, none⟩ : SortedParam)
          ∨ a = (⟨101, .resArg, none⟩ : SortedParam)
          ∨ a = (⟨102, .nextArg, none⟩ : SortedParam) := by
        simpa [initialParams] using ha
      rcases ha' with rfl | rfl | rfl
      · exact fun h => hres.1 h.symm
      · exact fun h => hres.2.1 h.symm
      · exact fun h => hres.2.2 h.symm
  have hneS : (generateSortedParamsEntries req paramsIndex).Pairwise
      (fun a b : SortedParam => a.weight ≠ b.weight) :=
    hne.perm hperm.symm fun h => h.symm
  have hsorted : List.Sorted paramLE (generateSortedParamsEntries req paramsIndex) :=
    List.sorted_insertionSort paramLE _
  have hstrict : (generateSortedParamsEntries req paramsIndex).Pairwise
      (fun a b => a.weight < b.weight) :=
    (List.Pairwise.and hsorted hneS).imp fun h =>
      lt_of_le_of_ne h.1 h.2
  have hmem : ∀ x : SortedParam,
      x ∈ initialParams req ++ boundParams req paramsIndex →
      x ∈ generateSortedParamsEntries req paramsIndex :=
    fun _ hx => hperm.mem_iff.mpr hx
  have hboundmem : ∀ (key : String) (w : Int), (key, some w) ∈ paramsIndex →
      (⟨w, resolveParamValue req key, some key⟩ : SortedParam)
        ∈ generateSortedParamsEntries req paramsIndex := by
    intro key w hw
    refine hmem _ (List.mem_append.mpr (Or.inr ?_))
    exact List.mem_filterMap.mpr ⟨(key, some w), hw, rfl⟩
  refine ⟨hlen, hstrict, ?_, ?_, ?_, ?_, ?_, ?_, ?_, ?_⟩
  · exact hmem _ (by simp [initialParams])
  · exact hmem _ (by simp [initialParams])
  · exact hmem _ (by simp [initialParams])
  · intro w hw
    simpa [resolveParamValue] using hboundmem "bodyIndex" w hw
  · intro w hw
    simpa [resolveParamValue] using hboundmem "paramsIndex" w hw
  · intro w hw
    simpa [resolveParamValue] using hboundmem "queryIndex" w hw
  · intro w hw
    simpa [resolveParamValue] using hboundmem "fileIndex" w hw
  · intro w hw
    simpa [resolveParamValue] using hboundmem "filesIndex" w hw

theorem generateSortedParams_spec_witness :
    (∀ p ∈ sampleParamsIndex, p.2 ≠ none →
        p.1 ∈ ["bodyIndex", "paramsIndex", "queryIndex", "fileIndex", "filesIndex"])
    ∧ (sampleParamsIndex.filterMap Prod.snd).Pairwise (· ≠ ·)
    ∧ (∀ w ∈ sampleParamsIndex.filterMap Prod.snd, w ≠ 100 ∧ w ≠ 101 ∧ w ≠ 102)
    ∧ (generateSortedParams sampleReq sampleParamsIndex).length
        = 3 + (sampleParamsIndex.filterMap Prod.snd).length
    ∧ (generateSortedParamsEntries sampleReq sampleParamsIndex).Pairwise
        (fun a b => a.weight < b.weight) := by
  have h := generateSortedParams_spec sampleReq sampleParamsIndex
    (by decide) (by decide) (by decide)
  exact ⟨by decide, by decide, by decide, h.1, h.2.1⟩

/-- Inserting one entry preserves, weight class by weight class, the order
of the entries already present: the skipped prefix consists of entries of
strictly smaller weight. -/
theorem filter_weight_orderedInsert (a : SortedParam) (l : List SortedParam)
    (w : Int) :
    ((List.orderedInsert paramLE a l).filter fun e => e.weight = w)
      = if a.weight = w
        then a :: (l.filter fun e => e.weight = w)
        else l.filter fun e => e.weight = w := by
  induction l with
  | nil =>
    by_cases haw : a.weight = w <;>
      simp [List.orderedInsert, List.filter_cons, haw]
  | cons b t ih =>
    by_cases hab : paramLE a b
    · by_cases haw : a.weight = w <;>
        simp [List.orderedInsert, hab, List.filter_cons, haw]
    · by_cases haw : a.weight = w <;> by_cases hbw : b.weight = w
      · exact absurd (le_of_eq (haw.trans hbw.symm)) hab
      · simp [List.orderedInsert, hab, List.filter_cons, haw, hbw, ih]
      · simp [List.orderedInsert, hab, List.filter_cons, haw, hbw, ih]
      · simp [List.orderedInsert, hab, List.filter_cons, haw, hbw, ih]

/-- The stable sort used to model `Array.prototype.sort` preserves, within
each weight class, the insertion order of the entries. -/
theorem filter_weight_insertionSort (l : List SortedParam) (w : Int) :
    ((List.insertionSort paramLE l).filter fun e => e.weight = w)
      = l.filter fun e => e.weight = w := by
  induction l with
  | nil => rfl
  | cons a t ih =>
    by_cases haw : a.weight = w <;>
      simp [List.insertionSort, filter_weight_orderedInsert, List.filter_cons,
        haw, ih]

/-- Claim C10: the argument ordering is deterministic even on weight ties —
the sort is stable over the entries inserted as request, response, next and
then the bound keys in enumeration order, so within every weight class
(including a bound weight colliding with a reserved 100/101/102) the
entries keep their insertion order. -/
theorem generateSortedParams_stable (req : Req)
    (paramsIndex : List (String × Option Int)) (w : Int) :
    ((generateSortedParamsEntries req paramsIndex).filter fun e => e.weight = w)
      = (initialParams req ++ boundParams req paramsIndex).filter
          fun e => e.weight = w :=
  filter_weight_insertionSort _ w

end PrettyExpress
